import Mathlib

/-!
# Log and script-state synchronisation layer of `web/static/js/app.js`

A shallow embedding of the client-side runtime of the management console:
the global `state` object, the log containers of the page, the `EventSource`
connection with its retry timer, and the functions that act on them
(`appendLogEntry`, `appendToContainer`, `clearLog`, `clearSystemLog`,
`connectSSE`, `toggleScript`, `updateScriptUI`, `loadHistoricalLogs`, `init`).

Modelling conventions.

* JavaScript objects used as dictionaries (`state.runningScripts`,
  `state.scriptLogs`) are functions `String → Option _`; `none` is `undefined`.
  Keys are script ids; none of them is a name that `Object.prototype` already
  defines (such as `__proto__` or `constructor`).
* The running flag of a snapshot entry is a boolean and its id a string.
* The document is a function from element ids to elements; `none` is the
  `null` that `document.getElementById` returns for a missing element.
* A function that can raise an exception after it has already written to
  the state returns the state reached together with a `threw` flag.
* Layout properties (`scrollTop`, `scrollHeight`) are not represented.
-/

namespace XueqiuTrader

/-! ## JavaScript values and log records -/

/-- A JavaScript value, as found in a property of a parsed log record: a
primitive, or an object or array, of which only the string conversion is kept. -/
inductive JsVal where
  | undefined
  | null
  | bool (b : Bool)
  | num (n : Int)
  | str (s : String)
  | object (asString : String)
  deriving DecidableEq, Repr

/-- Strict equality `a === b`. The code compares a property of a record with
string constants only; an object is equal to none of them. -/
def JsVal.strictEq : JsVal → JsVal → Bool
  | .undefined, .undefined => true
  | .null, .null => true
  | .bool a, .bool b => a == b
  | .num a, .num b => a == b
  | .str a, .str b => a == b
  | _, _ => false

/-- String conversion of a value interpolated in a template literal. -/
def JsVal.toStr : JsVal → String
  | .undefined => "undefined"
  | .null => "null"
  | .bool true => "true"
  | .bool false => "false"
  | .num n => toString n
  | .str s => s
  | .object asString => asString

/-- A log record: the four properties of the object that the code reads.
The code reads the origin of a record from its property `script`. -/
structure LogRecord where
  script : JsVal
  level : JsVal
  time : JsVal
  message : JsVal
  deriving DecidableEq, Repr

/-- One entry of a pushed `script_status` snapshot. -/
structure ScriptState where
  id : String
  running : Bool
  deriving DecidableEq, Repr

/-! ## Constants (lines 6-18) -/

/-- The table `SCRIPTS`: script id and display name, in the order of the literal. -/
def SCRIPTS : List (String × String) :=
  [("auto_track", "自动跟踪同步"),
   ("simulator", "模拟仓操作"),
   ("follower", "组合跟踪"),
   ("trader", "交易演示")]

/-- The object `state`. -/
structure State where
  runningScripts : String → Option Bool
  systemLogs : List LogRecord
  scriptLogs : String → Option (List LogRecord)

/-- The initial value of `state`: `{ runningScripts: {}, systemLogs: [], scriptLogs: {} }`. -/
def State.initial : State :=
  { runningScripts := fun _ => none, systemLogs := [], scriptLogs := fun _ => none }

/-! ## The document -/

/-- A node of the document tree below a container: a text node or an element
with its class list and child nodes. -/
inductive Node where
  | text (data : String)
  | elem (classList : List String) (childNodes : List Node)
  deriving Repr

/-- Whether a node is an element (`el.children` holds only those). -/
def Node.isElem : Node → Bool
  | .text _ => false
  | .elem _ _ => true

mutual
/-- Whether the node is, or contains, an element of class `empty-log`. -/
def Node.hasEmptyLog : Node → Bool
  | .text _ => false
  | .elem cls kids => cls.contains "empty-log" || Node.anyEmptyLog kids
/-- Whether `querySelector('.empty-log')` finds an element among these nodes
or their descendants. -/
def Node.anyEmptyLog : List Node → Bool
  | [] => false
  | n :: rest => Node.hasEmptyLog n || Node.anyEmptyLog rest
end

/-- The node created by `innerHTML = '<div class="empty-log">日志已清空</div>'`. -/
def emptyMarker : Node := .elem ["empty-log"] [.text "日志已清空"]

/-- An element that the code looks up by id. -/
structure Element where
  classList : List String
  display : String
  childNodes : List Node

/-- The document: `document.getElementById`. -/
abbrev Document := String → Option Element

/-- The document with the element of the given id replaced. -/
def Document.set (doc : Document) (id : String) (el : Element) : Document :=
  fun k => if k = id then some el else doc k

/-- ASCII whitespace, which separates the tokens of a `class` attribute. -/
def isAsciiWhitespace (c : Char) : Bool :=
  c = ' ' || c = '\t' || c = '\n' || c = '\x0c' || c = '\r'

/-- Split characters into whitespace-separated tokens; `cur` is the token
being read, in reverse. -/
def splitTokens : List Char → List Char → List String
  | cur, [] => if cur.isEmpty then [] else [String.mk cur.reverse]
  | cur, c :: cs =>
    if isAsciiWhitespace c then
      (if cur.isEmpty then splitTokens [] cs else String.mk cur.reverse :: splitTokens [] cs)
    else splitTokens (c :: cur) cs

/-- The class list that results from `el.className = s`. -/
def classTokens (s : String) : List String := splitTokens [] s.data

/-- Serialisation of one character of a text node by `innerHTML`. -/
def escapeChar (c : Char) : List Char :=
  if c = '&' then "&amp;".data
  else if c = '<' then "&lt;".data
  else if c = '>' then "&gt;".data
  else if c = '\xa0' then "&nbsp;".data
  else [c]

/-- The function `escapeHtml` (lines 21-25): the text is assigned to the `textContent` of
a fresh `div` (where `null` and `undefined` give the empty string) and the
`innerHTML` of the `div` is read back. -/
def escapeHtml (text : JsVal) : String :=
  match text with
  | .undefined => ""
  | .null => ""
  | v => String.mk (v.toStr.data.flatMap escapeChar)

/-- The part of the browser that the model takes as given: the HTML parser
behind an `innerHTML` assignment of markup built from record data. -/
structure Browser where
  parseHTML : String → List Node

/-! ## The client -/

/-- The function run by a pending timer. -/
inductive Callback where
  | connectSSE
  | hideToast
  deriving DecidableEq, Repr

/-- A pending `setTimeout`: callback and delay in milliseconds. -/
structure Timer where
  callback : Callback
  delay : Nat
  deriving DecidableEq, Repr

/-- A call of `toggleScript` suspended at its `await fetch`, with the value
of `isRunning` it captured. -/
structure Suspended where
  id : String
  isRunning : Option Bool
  deriving DecidableEq, Repr

/-- The whole client: `state`, the document, the variable `eventSource`, the
`EventSource` objects that are not closed, pending timers, suspended calls,
and the console and network output. `created` counts the `EventSource`
objects constructed so far and names the next one. -/
structure Client where
  state : State
  document : Document
  eventSource : Option Nat
  openSources : List Nat
  created : Nat
  timers : List Timer
  awaiting : List Suspended
  console : List String
  requests : List String

/-- The client when the script has been loaded on a page with the given document. -/
def Client.initial (doc : Document) : Client :=
  { state := State.initial, document := doc, eventSource := none, openSources := [],
    created := 0, timers := [], awaiting := [], console := [], requests := [] }

/-- A client together with whether the call that produced it raised an
exception that nothing caught. -/
structure Result where
  client : Client
  threw : Bool

/-- Truthiness of a value read from `state.runningScripts`. -/
def truthy : Option Bool → Bool
  | some true => true
  | _ => false

/-! ## Log management (lines 35-90) -/

/-- The function `toggleLog`. -/
def toggleLog (id : String) (c : Client) : Result :=
  match c.document ("log-" ++ id) with
  | none => ⟨c, true⟩
  | some el =>
    let cls := if el.classList.contains "expanded" then el.classList.filter (· ≠ "expanded")
      else el.classList ++ ["expanded"]
    ⟨{ c with document := c.document.set ("log-" ++ id) { el with classList := cls } }, false⟩

/-- The function `clearLog`: the buffer is reset first, then the container is looked up. -/
def clearLog (id : String) (c : Client) : Result :=
  let c1 : Client := { c with state := { c.state with
    scriptLogs := fun k => if k = id then some [] else c.state.scriptLogs k } }
  match c1.document ("content-" ++ id) with
  | none => ⟨c1, true⟩
  | some el =>
    ⟨{ c1 with document := c1.document.set ("content-" ++ id) { el with childNodes := [emptyMarker] } },
      false⟩

/-- The function `clearSystemLog`: the request is sent and its promise dropped, the
buffer is reset, then the container is looked up. -/
def clearSystemLog (c : Client) : Result :=
  let c1 : Client := { c with requests := c.requests ++ ["POST /api/logs/clear"] }
  let c2 : Client := { c1 with state := { c1.state with systemLogs := [] } }
  match c2.document "system-log" with
  | none => ⟨c2, true⟩
  | some el =>
    ⟨{ c2 with document := c2.document.set "system-log" { el with childNodes := [emptyMarker] } },
      false⟩

/-- The loop `while (el.children.length > 200) el.removeChild(el.firstChild)`
on the child nodes of the container. -/
def trimChildren : List Node → List Node
  | [] => []
  | n :: rest =>
    if ((n :: rest).filter Node.isElem).length > 200 then trimChildren rest else n :: rest

/-- The element built for a record (lines 80-82). -/
def createEntry (b : Browser) (log : LogRecord) : Node :=
  .elem (classTokens ("log-entry " ++ log.level.toStr))
    (b.parseHTML ("<span class=\"log-time\">" ++ log.time.toStr ++
      "</span><span class=\"log-msg\">" ++ escapeHtml log.message ++ "</span>"))

/-- The effect of `appendToContainer` on the child nodes of an existing container. -/
def appendToChildNodes (b : Browser) (log : LogRecord) (nodes : List Node) : List Node :=
  let kept := if Node.anyEmptyLog nodes then [] else nodes
  trimChildren (kept ++ [createEntry b log])

/-- The function `appendToContainer`. -/
def appendToContainer (b : Browser) (containerId : String) (log : LogRecord)
    (doc : Document) : Document :=
  match doc containerId with
  | none => doc
  | some el => doc.set containerId { el with childNodes := appendToChildNodes b log el.childNodes }

/-- The lookup `Object.keys(SCRIPTS).find(k => SCRIPTS[k] === log.script)`. -/
def findScriptId (script : JsVal) : Option String :=
  (SCRIPTS.find? (fun kv => JsVal.strictEq (.str kv.2) script)).map Prod.fst

/-- Push on `state.systemLogs` and render in `system-log`. -/
def appendSystem (b : Browser) (log : LogRecord) (c : Client) : Client :=
  { c with
    state := { c.state with systemLogs := c.state.systemLogs ++ [log] }
    document := appendToContainer b "system-log" log c.document }

/-- Push on `state.scriptLogs[id]`, created when absent, and render in `content-<id>`. -/
def appendScript (b : Browser) (id : String) (log : LogRecord) (c : Client) : Client :=
  { c with
    state := { c.state with
      scriptLogs := fun k =>
        if k = id then some ((c.state.scriptLogs id).getD [] ++ [log]) else c.state.scriptLogs k }
    document := appendToContainer b ("content-" ++ id) log c.document }

/-- The function `appendLogEntry`. -/
def appendLogEntry (b : Browser) (log : LogRecord) (c : Client) : Client :=
  if JsVal.strictEq log.script (.str "system") then appendSystem b log c
  else
    match findScriptId log.script with
    | some id => if id ≠ "" then appendScript b id log c else appendSystem b log c
    | none => appendSystem b log c

/-! ## The event stream (lines 92-126) -/

/-- The call `eventSource.close()` on the object held by the variable. -/
def closeHeld (c : Client) : Client :=
  match c.eventSource with
  | none => c
  | some e => { c with openSources := c.openSources.filter (· ≠ e) }

/-- The statement `eventSource = new EventSource('/api/logs/stream')`. -/
def openNew (c : Client) : Client :=
  { c with
    eventSource := some c.created
    openSources := c.openSources ++ [c.created]
    created := c.created + 1
    requests := c.requests ++ ["GET /api/logs/stream"] }

/-- The function `connectSSE`. -/
def connectSSE (c : Client) : Client :=
  let c1 := openNew (closeHeld c)
  { c1 with console := c1.console ++ ["SSE事件流已连接"] }

/-- The data of a server-sent event, by what the handler makes of it:
`JSON.parse` raises; or it yields a value on which the handler raises before
writing anything (`null`, or for `script_status` a value whose `scripts` is
not an array); or it yields a value of the expected shape. -/
inductive EventData (α : Type) where
  | unparseable (raw : String)
  | illTyped (raw : String)
  | wellFormed (a : α)

/-- The document part of one step of `scripts.forEach` in `updateScriptUI`:
nothing is drawn unless the card, the badge and the button of the script all exist. -/
def renderScript (s : ScriptState) (doc : Document) : Document :=
  match doc ("card-" ++ s.id), doc ("badge-" ++ s.id), doc ("btn-" ++ s.id) with
  | some card, some badge, some btn =>
    if s.running then
      let card1 := { card with classList :=
        if card.classList.contains "running" then card.classList else card.classList ++ ["running"] }
      let d1 := doc.set ("card-" ++ s.id) card1
      let d2 := d1.set ("badge-" ++ s.id) { badge with display := "inline" }
      d2.set ("btn-" ++ s.id)
        { btn with childNodes := [.text "停止"], classList := ["btn", "btn-danger", "btn-sm"] }
    else
      let card1 := { card with classList := card.classList.filter (· ≠ "running") }
      let d1 := doc.set ("card-" ++ s.id) card1
      let d2 := d1.set ("badge-" ++ s.id) { badge with display := "none" }
      d2.set ("btn-" ++ s.id)
        { btn with childNodes := [.text "启动"], classList := ["btn", "btn-success", "btn-sm"] }
  | _, _, _ => doc

/-- One step of `scripts.forEach` in `updateScriptUI`: the table is written
first, then the elements are looked up. -/
def updateScriptEntry (c : Client) (s : ScriptState) : Client :=
  { c with
    state := { c.state with
      runningScripts := fun k => if k = s.id then some s.running else c.state.runningScripts k }
    document := renderScript s c.document }

/-- The function `updateScriptUI`. -/
def updateScriptUI (scripts : List ScriptState) (c : Client) : Client :=
  scripts.foldl updateScriptEntry c

/-- The `try` block of the `log` listener: `JSON.parse(event.data)` followed
by `appendLogEntry(log)`; an error is the exception raised. -/
def logTryBlock (b : Browser) (data : EventData LogRecord) (c : Client) : Except String Client :=
  match data with
  | .unparseable _ => .error "SyntaxError"
  | .illTyped _ => .error "TypeError"
  | .wellFormed log => .ok (appendLogEntry b log c)

/-- The listener for `log` events registered by `connectSSE`: the `try` block,
and on an exception the `catch` block, which writes to the console. -/
def onLog (b : Browser) (data : EventData LogRecord) (c : Client) : Result :=
  match logTryBlock b data c with
  | .ok c1 => ⟨c1, false⟩
  | .error _ => ⟨{ c with console := c.console ++ ["解析日志失败"] }, false⟩

/-- The `try` block of the `script_status` listener: `JSON.parse(event.data)`
followed by `updateScriptUI(data.scripts)`. -/
def scriptStatusTryBlock (data : EventData (List ScriptState)) (c : Client) :
    Except String Client :=
  match data with
  | .unparseable _ => .error "SyntaxError"
  | .illTyped _ => .error "TypeError"
  | .wellFormed scripts => .ok (updateScriptUI scripts c)

/-- The listener for `script_status` events registered by `connectSSE`. -/
def onScriptStatus (data : EventData (List ScriptState)) (c : Client) : Result :=
  match scriptStatusTryBlock data c with
  | .ok c1 => ⟨c1, false⟩
  | .error _ => ⟨{ c with console := c.console ++ ["解析脚本状态失败"] }, false⟩

/-- The handler `eventSource.onerror`. -/
def onError (c : Client) : Client :=
  let c1 : Client := { c with console := c.console ++ ["SSE连接错误，5秒后重连..."] }
  let c2 := closeHeld c1
  { c2 with timers := c2.timers ++ [⟨Callback.connectSSE, 5000⟩] }

/-! ## Script control (lines 27-33, 129-170) -/

/-- The function `toast`: `none` when the element `toast` is missing, in which case the
first statement raises and nothing has been written. -/
def toast (msg type : String) (c : Client) : Option Client :=
  match c.document "toast" with
  | none => none
  | some el =>
    some { c with
      document := c.document.set "toast"
        { el with childNodes := [.text msg], classList := classTokens ("toast " ++ type),
                  display := "block" }
      timers := c.timers ++ [⟨Callback.hideToast, 3000⟩] }

/-- The callback of the timer set by `toast`. -/
def hideToast (c : Client) : Client :=
  match c.document "toast" with
  | none => c
  | some el => { c with document := c.document.set "toast" { el with display := "none" } }

/-- What the `fetch` of a POST request and the `res.json()` after it produce:
a rejection, or a body with `success` and possibly `error`. -/
inductive PostReply where
  | failed
  | body (success : Bool) (error : Option String)
  deriving DecidableEq, Repr

/-- The address requested by `toggleScript(id)`. -/
def toggleRequest (id : String) (c : Client) : String :=
  "POST /api/scripts/" ++ id ++ "/" ++
    (if truthy (c.state.runningScripts id) then "stop" else "start")

/-- The function `toggleScript` up to its `await`: `isRunning` is read, the request is sent
and the call is suspended. -/
def toggleScript (id : String) (c : Client) : Client :=
  { c with
    requests := c.requests ++ [toggleRequest id c]
    awaiting := c.awaiting ++ [⟨id, c.state.runningScripts id⟩] }

/-- The `catch` block of `toggleScript`. -/
def toggleCatch (c : Client) : Result :=
  match toast "请求失败" "error" c with
  | some c1 => ⟨c1, false⟩
  | none => ⟨c, true⟩

/-- The function `toggleScript` from its `await` on, for the reply received. -/
def toggleScriptResume (k : Suspended) (reply : PostReply) (c : Client) : Result :=
  match reply with
  | .failed => toggleCatch c
  | .body true _ =>
    match toast (if truthy k.isRunning then "脚本已停止" else "脚本启动成功!") "success" c with
    | none => toggleCatch c
    | some c1 =>
      if truthy k.isRunning then ⟨c1, false⟩
      else
        match c1.document ("log-" ++ k.id) with
        | none => toggleCatch c1
        | some el =>
          let cls := if el.classList.contains "expanded" then el.classList
            else el.classList ++ ["expanded"]
          ⟨{ c1 with document := c1.document.set ("log-" ++ k.id) { el with classList := cls } },
            false⟩
  | .body false error =>
    let msg := match error with
      | some e => if e ≠ "" then e else "操作失败"
      | none => "操作失败"
    match toast msg "error" c with
    | none => toggleCatch c
    | some c1 => ⟨c1, false⟩

/-! ## Start-up (lines 443-474) -/

/-- What the history request produces: a rejection, or a body with `success`
and possibly `logs`. -/
inductive HistoryReply where
  | failed
  | body (success : Bool) (logs : Option (List LogRecord))

/-- The function `loadHistoricalLogs`, for the reply received. -/
def loadHistoricalLogs (b : Browser) (reply : HistoryReply) (c : Client) : Client :=
  let c1 : Client := { c with requests := c.requests ++ ["GET /api/logs/history?limit=100"] }
  match reply with
  | .failed => { c1 with console := c1.console ++ ["加载历史日志失败"] }
  | .body true (some logs) =>
    let c2 := logs.foldl (fun acc log => appendLogEntry b log acc) c1
    { c2 with console := c2.console ++ ["加载了 " ++ toString logs.length ++ " 条历史日志"] }
  | .body _ _ => c1

/-- The function `init`: the history is replayed, then `connectSSE` is called. The call of
`loadConfig`, which reads and writes form fields only, is represented by its request. -/
def init (b : Browser) (reply : HistoryReply) (c : Client) : Client :=
  let c1 : Client := { c with requests := c.requests ++ ["GET /api/config"] }
  connectSSE (loadHistoricalLogs b reply c1)

/-! ## Events -/

/-- What can happen to the client after `init`: an event dispatched on an
`EventSource`, a timer that fires, a click, or the settling of a request. -/
inductive Event where
  | log (source : Nat) (data : EventData LogRecord)
  | scriptStatus (source : Nat) (data : EventData (List ScriptState))
  | error (source : Nat)
  | timerFires (k : Nat)
  | clickToggleScript (id : String)
  | toggleSettled (k : Nat) (reply : PostReply)
  | clickClearLog (id : String)
  | clickClearSystemLog
  | clearSettled (reply : PostReply)
  | clickToggleLog (id : String)

/-- Run the callback of the pending timer at position `k`, if there is one. -/
def fireTimer (k : Nat) (c : Client) : Client :=
  match c.timers.get? k with
  | none => c
  | some t =>
    let c1 : Client := { c with timers := c.timers.eraseIdx k }
    match t.callback with
    | .connectSSE => connectSSE c1
    | .hideToast => hideToast c1

/-- The reaction of the client to one event. An `EventSource` that has been
closed dispatches nothing; the promise of the clear request has no
continuation. -/
def step (b : Browser) (ev : Event) (c : Client) : Client :=
  match ev with
  | .log source data => if source ∈ c.openSources then (onLog b data c).client else c
  | .scriptStatus source data =>
    if source ∈ c.openSources then (onScriptStatus data c).client else c
  | .error source => if source ∈ c.openSources then onError c else c
  | .timerFires k => fireTimer k c
  | .clickToggleScript id => toggleScript id c
  | .toggleSettled k reply =>
    match c.awaiting.get? k with
    | none => c
    | some call => (toggleScriptResume call reply { c with awaiting := c.awaiting.eraseIdx k }).client
  | .clickClearLog id => (clearLog id c).client
  | .clickClearSystemLog => (clearSystemLog c).client
  | .clearSettled _ => c
  | .clickToggleLog id => (toggleLog id c).client

/-- The client after a sequence of events. -/
def run (b : Browser) (evs : List Event) (c : Client) : Client :=
  evs.foldl (fun acc ev => step b ev acc) c

/-! ## Reference notions used in the statements -/

/-- The last `n` elements of a list. -/
def lastN {α : Type} (n : Nat) (l : List α) : List α := l.drop (l.length - n)

/-- The element children of a list of child nodes (`el.children`). -/
def children (nodes : List Node) : List Node := nodes.filter Node.isElem

/-- A buffer identifier. -/
inductive BufferId where
  | system
  | script (id : String)
  deriving DecidableEq, Repr

/-- Routing as the specification words it: the buffer of the script whose
display name the source equals, and the system buffer for every other source. -/
def route (log : LogRecord) : BufferId :=
  match log.script with
  | .str "自动跟踪同步" => .script "auto_track"
  | .str "模拟仓操作" => .script "simulator"
  | .str "组合跟踪" => .script "follower"
  | .str "交易演示" => .script "trader"
  | _ => .system

/-- The contents of a buffer of the state; a script buffer that was never
created is empty. -/
def State.buffer (s : State) : BufferId → List LogRecord
  | .system => s.systemLogs
  | .script id => (s.scriptLogs id).getD []

/-- The running flag of the last entry for `id` in a snapshot, if any. -/
def lastFlag (id : String) (scripts : List ScriptState) : Option Bool :=
  (scripts.reverse.find? (fun s => s.id = id)).map ScriptState.running

/-- A record of the system process, used in the examples. -/
def systemRecord (message : String) : LogRecord :=
  { script := .str "system", level := .str "info", time := .str "12:00:00", message := .str message }

/-- Replay of a list of records through `appendLogEntry`, in order. -/
def appendAll (b : Browser) (logs : List LogRecord) (c : Client) : Client :=
  logs.foldl (fun acc log => appendLogEntry b log acc) c

/-- The pending timers that will call `connectSSE`. -/
def retryTimers (c : Client) : List Timer :=
  c.timers.filter (fun t => t.callback = Callback.connectSSE)

/-- The client reached from a freshly loaded page by `init` and then a
sequence of events. -/
def reached (b : Browser) (doc : Document) (reply : HistoryReply) (evs : List Event) : Client :=
  run b evs (init b reply (Client.initial doc))

/-- A browser whose parser keeps markup as a single text node; it stands for
the browser in examples where the parse of an entry is immaterial. -/
def textOnlyBrowser : Browser := ⟨fun markup => [.text markup]⟩

/-- A page with the system log container and the toast element, the
container showing the marker. -/
def samplePage : Document :=
  fun k =>
    if k = "system-log" then some ⟨["log-content"], "", [emptyMarker]⟩
    else if k = "toast" then some ⟨["toast"], "none", []⟩
    else none

/-- The client on the sample page after one record of the system process. -/
def loggedClient : Client :=
  appendLogEntry textOnlyBrowser (systemRecord "L1") (Client.initial samplePage)

/-- Two clients agree on the connection: the variable `eventSource`, the open
connections, the number of connections made and the pending retries. -/
def SameChannel (c1 c : Client) : Prop :=
  c1.eventSource = c.eventSource ∧ c1.openSources = c.openSources ∧
    c1.created = c.created ∧ retryTimers c1 = retryTimers c

/-- The state of the connection in a running client: the variable holds a
connection made earlier, and either that connection is the only open one and
no retry is pending, or no connection is open and a single retry of 5000 ms
is pending. -/
def ChannelInv (c : Client) : Prop :=
  ∃ e, c.eventSource = some e ∧ e < c.created ∧
    ((c.openSources = [e] ∧ retryTimers c = []) ∨
     (c.openSources = [] ∧ retryTimers c = [⟨Callback.connectSSE, 5000⟩]))

/-- A record of the system process whose level is the string `empty-log`. -/
def oddLevelRecord : LogRecord :=
  { script := .str "system", level := .str "empty-log", time := .str "12:00:01",
    message := .str "L1" }

/-! ## Routing -/

/-- The branch taken by `appendLogEntry` is the one named by `route`. -/
theorem appendLogEntry_eq (b : Browser) (log : LogRecord) (c : Client) :
    appendLogEntry b log c =
      match route log with
      | .system => appendSystem b log c
      | .script id => appendScript b id log c := by
  obtain ⟨script, level, time, message⟩ := log
  cases script with
  | str s =>
    by_cases h1 : s = "自动跟踪同步"
    · subst h1; rfl
    by_cases h2 : s = "模拟仓操作"
    · subst h2; rfl
    by_cases h3 : s = "组合跟踪"
    · subst h3; rfl
    by_cases h4 : s = "交易演示"
    · subst h4; rfl
    have hr : route ⟨.str s, level, time, message⟩ = .system := by
      unfold route
      split <;> simp_all
    rw [hr]
    have e1 : ("自动跟踪同步" == s) = false := beq_eq_false_iff_ne.mpr (Ne.symm h1)
    have e2 : ("模拟仓操作" == s) = false := beq_eq_false_iff_ne.mpr (Ne.symm h2)
    have e3 : ("组合跟踪" == s) = false := beq_eq_false_iff_ne.mpr (Ne.symm h3)
    have e4 : ("交易演示" == s) = false := beq_eq_false_iff_ne.mpr (Ne.symm h4)
    simp [appendLogEntry, findScriptId, SCRIPTS, JsVal.strictEq, List.find?, e1, e2, e3, e4]
  | _ => rfl

/-- The buffers after `appendLogEntry`: the record is at the tail of the
buffer it routes to, and the other buffers are as before. -/
theorem appendLogEntry_buffer (b : Browser) (log : LogRecord) (c : Client) (t : BufferId) :
    (appendLogEntry b log c).state.buffer t =
      if route log = t then c.state.buffer t ++ [log] else c.state.buffer t := by
  rw [appendLogEntry_eq]
  cases hr : route log with
  | system =>
    cases t with
    | system => simp [appendSystem, State.buffer]
    | script k => simp [appendSystem, State.buffer]
  | script id =>
    cases t with
    | system => simp [appendScript, State.buffer]
    | script k =>
      by_cases hk : k = id
      · subst hk; simp [appendScript, State.buffer]
      · have hk2 : ¬ id = k := fun h => hk h.symm
        simp [appendScript, State.buffer, hk, hk2]

/-- The dictionary `state.scriptLogs` after `appendLogEntry`, key by key. -/
theorem appendLogEntry_scriptLogs (b : Browser) (log : LogRecord) (c : Client) (k : String) :
    (appendLogEntry b log c).state.scriptLogs k =
      if route log = .script k then some ((c.state.scriptLogs k).getD [] ++ [log])
      else c.state.scriptLogs k := by
  rw [appendLogEntry_eq]
  cases hr : route log with
  | system => simp [appendSystem]
  | script id =>
    by_cases hk : k = id
    · subst hk; simp [appendScript]
    · have hk2 : ¬ id = k := fun h => hk h.symm
      simp [appendScript, hk, hk2]

/-- The function `appendLogEntry` touches nothing but `state` and the document. -/
theorem appendLogEntry_frame (b : Browser) (log : LogRecord) (c : Client) :
    (appendLogEntry b log c).state.runningScripts = c.state.runningScripts ∧
    (appendLogEntry b log c).eventSource = c.eventSource ∧
    (appendLogEntry b log c).openSources = c.openSources ∧
    (appendLogEntry b log c).created = c.created ∧
    (appendLogEntry b log c).timers = c.timers ∧
    (appendLogEntry b log c).awaiting = c.awaiting ∧
    (appendLogEntry b log c).console = c.console ∧
    (appendLogEntry b log c).requests = c.requests := by
  rw [appendLogEntry_eq]
  cases route log <;> simp [appendSystem, appendScript]

/-- Replaying records leaves in each buffer what it held, followed by the
replayed records that route to it, in order. -/
theorem appendAll_buffer (b : Browser) (logs : List LogRecord) (c : Client) (t : BufferId) :
    (appendAll b logs c).state.buffer t =
      c.state.buffer t ++ logs.filter (fun l => route l = t) := by
  induction logs generalizing c with
  | nil => simp [appendAll]
  | cons log rest ih =>
    have h : appendAll b (log :: rest) c = appendAll b rest (appendLogEntry b log c) := rfl
    rw [h, ih, appendLogEntry_buffer]
    by_cases hr : route log = t
    · simp [hr, List.filter_cons]
    · simp [hr, List.filter_cons]

/-- Replaying records leaves the open connections as they were. -/
theorem appendAll_openSources (b : Browser) (logs : List LogRecord) (c : Client) :
    (appendAll b logs c).openSources = c.openSources := by
  induction logs generalizing c with
  | nil => rfl
  | cons log rest ih =>
    have h : appendAll b (log :: rest) c = appendAll b rest (appendLogEntry b log c) := rfl
    rw [h, ih, (appendLogEntry_frame b log c).2.2.1]

/-- C2. Routing by `appendLogEntry` is total and deterministic: the record
is appended to the tail of the one buffer named by `route` and every other
buffer, as well as the script state table, is left as it was. The target is
the buffer of a script exactly when the source is the display name of that
script in `SCRIPTS`; it is the system buffer for every other source, among
them `"system"`, a missing source and an unknown string. -/
theorem appendLogEntry_routes_to_one_buffer (b : Browser) (log : LogRecord) (c : Client) :
    (∀ t : BufferId, (appendLogEntry b log c).state.buffer t =
        if route log = t then c.state.buffer t ++ [log] else c.state.buffer t) ∧
    (∀ k, (appendLogEntry b log c).state.scriptLogs k =
        if route log = .script k then some ((c.state.scriptLogs k).getD [] ++ [log])
        else c.state.scriptLogs k) ∧
    (appendLogEntry b log c).state.runningScripts = c.state.runningScripts ∧
    (∀ kv ∈ SCRIPTS, log.script = .str kv.2 → route log = .script kv.1) ∧
    ((∀ kv ∈ SCRIPTS, log.script ≠ .str kv.2) → route log = .system) ∧
    (∀ id, route log = .script id → (id, log.script) ∈ SCRIPTS.map (fun kv => (kv.1, JsVal.str kv.2))) ∧
    (∀ level time message, route ⟨.str "system", level, time, message⟩ = .system ∧
      route ⟨.undefined, level, time, message⟩ = .system ∧
      route ⟨.str "unknown", level, time, message⟩ = .system) := by
  refine ⟨appendLogEntry_buffer b log c, appendLogEntry_scriptLogs b log c,
    (appendLogEntry_frame b log c).1, ?_, ?_, ?_, ?_⟩
  · intro kv hkv hs
    obtain ⟨script, level, time, message⟩ := log
    simp only [SCRIPTS, List.mem_cons, List.mem_singleton, List.not_mem_nil, or_false] at hkv
    simp only at hs
    rcases hkv with h | h | h | h <;> subst h <;> subst hs <;> rfl
  · intro h
    obtain ⟨script, level, time, message⟩ := log
    have h1 := h ("auto_track", "自动跟踪同步") (by simp [SCRIPTS])
    have h2 := h ("simulator", "模拟仓操作") (by simp [SCRIPTS])
    have h3 := h ("follower", "组合跟踪") (by simp [SCRIPTS])
    have h4 := h ("trader", "交易演示") (by simp [SCRIPTS])
    unfold route
    split <;> simp_all
  · intro id h
    obtain ⟨script, level, time, message⟩ := log
    unfold route at h
    split at h <;> simp_all [SCRIPTS]
  · intro level time message
    exact ⟨rfl, rfl, rfl⟩

/-- C1. The code does not bound the buffers of `state`: after `n` records
of the system process have been appended to the empty buffer,
`state.systemLogs` holds all `n` of them, so 201 records leave a buffer of
length 201 where the claim allows 200. -/
theorem systemLogs_grow_without_bound (b : Browser) (doc : Document) (n : Nat) :
    (appendAll b (List.replicate n (systemRecord "tick")) (Client.initial doc)).state.systemLogs
        = List.replicate n (systemRecord "tick") ∧
    (appendAll b (List.replicate 201 (systemRecord "tick"))
        (Client.initial doc)).state.systemLogs.length = 201 := by
  have key : ∀ m, (appendAll b (List.replicate m (systemRecord "tick"))
      (Client.initial doc)).state.systemLogs = List.replicate m (systemRecord "tick") := by
    intro m
    have h := appendAll_buffer b (List.replicate m (systemRecord "tick")) (Client.initial doc) .system
    have hr : route (systemRecord "tick") = BufferId.system := rfl
    have h0 : (Client.initial doc).state.buffer .system = [] := rfl
    rw [h0, List.nil_append] at h
    have hf : (List.replicate m (systemRecord "tick")).filter (fun l => route l = BufferId.system)
        = List.replicate m (systemRecord "tick") := by
      rw [List.filter_eq_self]
      intro a ha
      rw [List.eq_of_mem_replicate ha, hr]
      exact decide_eq_true rfl
    rw [hf] at h
    exact h
  refine ⟨key n, ?_⟩
  rw [key 201]
  exact List.length_replicate 201 _

/-- Log events dispatched on an open connection replay their records
through `appendLogEntry`. -/
theorem run_log_events (b : Browser) (src : Nat) (V : List LogRecord) (c : Client)
    (h : src ∈ c.openSources) :
    run b (V.map (fun r => Event.log src (.wellFormed r))) c = appendAll b V c := by
  induction V generalizing c with
  | nil => rfl
  | cons r rest ih =>
    have h1 : run b ((r :: rest).map (fun r => Event.log src (.wellFormed r))) c =
        run b (rest.map (fun r => Event.log src (.wellFormed r))) (appendLogEntry b r c) := by
      simp [run, step, onLog, logTryBlock, h]
    have h2 : appendAll b (r :: rest) c = appendAll b rest (appendLogEntry b r c) := rfl
    rw [h1, h2]
    apply ih
    rw [(appendLogEntry_frame b r c).2.2.1]
    exact h

/-- The function `connectSSE` leaves `state` as it is. -/
theorem connectSSE_state (c : Client) : (connectSSE c).state = c.state := by
  unfold connectSSE openNew closeHeld
  cases c.eventSource <;> rfl

/-- The connection fields of the client are not touched by a replay. -/
theorem appendAll_channel (b : Browser) (logs : List LogRecord) (c : Client) :
    (appendAll b logs c).eventSource = c.eventSource ∧
    (appendAll b logs c).openSources = c.openSources ∧
    (appendAll b logs c).created = c.created ∧
    (appendAll b logs c).timers = c.timers := by
  induction logs generalizing c with
  | nil => exact ⟨rfl, rfl, rfl, rfl⟩
  | cons log rest ih =>
    have h : appendAll b (log :: rest) c = appendAll b rest (appendLogEntry b log c) := rfl
    have f := appendLogEntry_frame b log c
    rw [h]
    obtain ⟨i1, i2, i3, i4⟩ := ih (appendLogEntry b log c)
    exact ⟨i1.trans f.2.1, i2.trans f.2.2.1, i3.trans f.2.2.2.1, i4.trans f.2.2.2.2.1⟩

/-- The function `loadHistoricalLogs` leaves the connection fields as they are. -/
theorem loadHistoricalLogs_channel (b : Browser) (reply : HistoryReply) (c : Client) :
    (loadHistoricalLogs b reply c).eventSource = c.eventSource ∧
    (loadHistoricalLogs b reply c).openSources = c.openSources ∧
    (loadHistoricalLogs b reply c).created = c.created ∧
    (loadHistoricalLogs b reply c).timers = c.timers := by
  cases reply with
  | failed => exact ⟨rfl, rfl, rfl, rfl⟩
  | body success logs =>
    cases success with
    | false => exact ⟨rfl, rfl, rfl, rfl⟩
    | true =>
      cases logs with
      | none => exact ⟨rfl, rfl, rfl, rfl⟩
      | some l =>
        exact appendAll_channel b l
          { c with requests := c.requests ++ ["GET /api/logs/history?limit=100"] }

/-- The connection opened by `init` on a fresh page is the one numbered 0. -/
theorem init_openSources (b : Browser) (reply : HistoryReply) (doc : Document) :
    (init b reply (Client.initial doc)).openSources = [0] ∧
    (init b reply (Client.initial doc)).eventSource = some 0 ∧
    (init b reply (Client.initial doc)).created = 1 ∧
    (init b reply (Client.initial doc)).timers = [] := by
  obtain ⟨i1, i2, i3, i4⟩ := loadHistoricalLogs_channel b reply
    { (Client.initial doc) with requests := (Client.initial doc).requests ++ ["GET /api/config"] }
  have e1 : (init b reply (Client.initial doc)) = connectSSE (loadHistoricalLogs b reply
    { (Client.initial doc) with requests := (Client.initial doc).requests ++ ["GET /api/config"] }) := rfl
  rw [e1]
  generalize loadHistoricalLogs b reply
    { (Client.initial doc) with requests := (Client.initial doc).requests ++ ["GET /api/config"] } = x at *
  simp only [Client.initial] at i1 i2 i3 i4
  simp [connectSSE, openNew, closeHeld, i1, i2, i3, i4]

/-- The buffers after `init` with a successful history reply hold the
backlog, on a fresh page. -/
theorem init_buffer (b : Browser) (doc : Document) (B : List LogRecord) (t : BufferId) :
    (init b (.body true (some B)) (Client.initial doc)).state.buffer t
      = B.filter (fun l => route l = t) := by
  have e1 : (init b (.body true (some B)) (Client.initial doc)) =
      connectSSE (loadHistoricalLogs b (.body true (some B))
        { (Client.initial doc) with requests := (Client.initial doc).requests ++ ["GET /api/config"] }) := rfl
  rw [e1, connectSSE_state]
  have e2 : (loadHistoricalLogs b (.body true (some B))
        { (Client.initial doc) with requests := (Client.initial doc).requests ++ ["GET /api/config"] }).state
      = (appendAll b B { (Client.initial doc) with requests :=
          (Client.initial doc).requests ++ ["GET /api/config"] ++ ["GET /api/logs/history?limit=100"] }).state := rfl
  rw [e2, appendAll_buffer]
  have h0 : State.buffer State.initial t = [] := by cases t <;> rfl
  simp only [Client.initial, h0, List.nil_append]

/-- C3. Replaying the backlog and then the live events keeps the order of
arrival: after `init` has replayed the backlog `B` and opened the connection
and the live records `V` have been delivered on it, each buffer holds exactly
the records of `B ++ V` that route to it, in that order. With backlog
`[L1, L2]` and live records `[L3, L4]` of the system process the system
buffer ends as `[L1, L2, L3, L4]`. -/
theorem backlog_then_live_keeps_order (b : Browser) (doc : Document)
    (B V : List LogRecord) (t : BufferId) :
    (run b (V.map (fun r => Event.log 0 (.wellFormed r)))
        (init b (.body true (some B)) (Client.initial doc))).state.buffer t
      = (B ++ V).filter (fun l => route l = t) ∧
    (run b ([systemRecord "L3", systemRecord "L4"].map (fun r => Event.log 0 (.wellFormed r)))
        (init b (.body true (some [systemRecord "L1", systemRecord "L2"]))
          (Client.initial doc))).state.systemLogs
      = [systemRecord "L1", systemRecord "L2", systemRecord "L3", systemRecord "L4"] := by
  have key : ∀ (B V : List LogRecord) (t : BufferId),
      (run b (V.map (fun r => Event.log 0 (.wellFormed r)))
        (init b (.body true (some B)) (Client.initial doc))).state.buffer t
      = (B ++ V).filter (fun l => route l = t) := by
    intro B V t
    have hopen : 0 ∈ (init b (.body true (some B)) (Client.initial doc)).openSources := by
      rw [(init_openSources b _ doc).1]; simp
    rw [run_log_events b 0 V _ hopen, appendAll_buffer]
    have hinit := init_buffer b doc B t
    rw [hinit, List.filter_append]
  refine ⟨key B V t, ?_⟩
  have h := key [systemRecord "L1", systemRecord "L2"] [systemRecord "L3", systemRecord "L4"] .system
  simp only [State.buffer] at h
  rw [h]
  rfl

/-! ## The script state table -/

/-- One step of `updateScriptUI` writes the table at the id of the entry and
leaves every other part of the client but the document as it was. -/
theorem updateScriptEntry_effect (c : Client) (s : ScriptState) :
    (∀ k, (updateScriptEntry c s).state.runningScripts k =
      if k = s.id then some s.running else c.state.runningScripts k) ∧
    (updateScriptEntry c s).state.systemLogs = c.state.systemLogs ∧
    (updateScriptEntry c s).state.scriptLogs = c.state.scriptLogs ∧
    (updateScriptEntry c s).eventSource = c.eventSource ∧
    (updateScriptEntry c s).openSources = c.openSources ∧
    (updateScriptEntry c s).created = c.created ∧
    (updateScriptEntry c s).timers = c.timers := by
  exact ⟨fun _ => rfl, rfl, rfl, rfl, rfl, rfl, rfl⟩

/-- The last flag for an id in a snapshot extended at the front. -/
theorem lastFlag_cons (id : String) (s : ScriptState) (rest : List ScriptState) :
    lastFlag id (s :: rest) =
      match lastFlag id rest with
      | some r => some r
      | none => if s.id = id then some s.running else none := by
  unfold lastFlag
  rw [List.reverse_cons, List.find?_append]
  cases h : List.find? (fun s => decide (s.id = id)) rest.reverse with
  | some x => simp
  | none =>
    by_cases hs : s.id = id
    · simp [List.find?, hs]
    · simp [List.find?, hs]

/-- The table after `updateScriptUI`: the last flag of the snapshot for an
id that occurs in it, the old value for an id that does not. -/
theorem updateScriptUI_runningScripts (scripts : List ScriptState) (c : Client) (id : String) :
    (updateScriptUI scripts c).state.runningScripts id =
      match lastFlag id scripts with
      | some r => some r
      | none => c.state.runningScripts id := by
  induction scripts generalizing c with
  | nil => rfl
  | cons s rest ih =>
    have h : updateScriptUI (s :: rest) c = updateScriptUI rest (updateScriptEntry c s) := rfl
    rw [h, ih, lastFlag_cons, (updateScriptEntry_effect c s).1]
    cases lastFlag id rest with
    | some r => rfl
    | none =>
      by_cases hs : s.id = id
      · simp [hs]
      · have hs2 : ¬ id = s.id := fun e => hs e.symm
        simp [hs, hs2]

/-- The function `updateScriptUI` leaves the buffers and the connection fields as they are. -/
theorem updateScriptUI_frame (scripts : List ScriptState) (c : Client) :
    (updateScriptUI scripts c).state.systemLogs = c.state.systemLogs ∧
    (updateScriptUI scripts c).state.scriptLogs = c.state.scriptLogs ∧
    (updateScriptUI scripts c).eventSource = c.eventSource ∧
    (updateScriptUI scripts c).openSources = c.openSources ∧
    (updateScriptUI scripts c).created = c.created ∧
    (updateScriptUI scripts c).timers = c.timers := by
  induction scripts generalizing c with
  | nil => exact ⟨rfl, rfl, rfl, rfl, rfl, rfl⟩
  | cons s rest ih =>
    have h : updateScriptUI (s :: rest) c = updateScriptUI rest (updateScriptEntry c s) := rfl
    obtain ⟨_, e1, e2, e3, e4, e5, e6⟩ := updateScriptEntry_effect c s
    obtain ⟨i1, i2, i3, i4, i5, i6⟩ := ih (updateScriptEntry c s)
    rw [h]
    exact ⟨i1.trans e1, i2.trans e2, i3.trans e3, i4.trans e4, i5.trans e5, i6.trans e6⟩

/-- An id that no entry of the snapshot carries has no last flag. -/
theorem lastFlag_eq_none (id : String) (scripts : List ScriptState)
    (h : id ∉ scripts.map ScriptState.id) : lastFlag id scripts = none := by
  induction scripts with
  | nil => rfl
  | cons s rest ih =>
    rw [lastFlag_cons]
    simp only [List.map_cons, List.mem_cons, not_or] at h
    rw [ih h.2]
    have hs : ¬ s.id = id := fun e => h.1 e.symm
    simp [hs]

/-- C4. Applying a snapshot with `updateScriptUI` overwrites the stored
state per id and nothing else: afterwards `state.runningScripts[id]` is the
running flag of the last entry for `id` in the snapshot when there is one,
whatever elements the document has, and is unchanged when there is none; the
log buffers are unchanged. Applying `[{id: "x", running: true}]` and then
`[{id: "x", running: false}]` leaves the state of `"x"` as `false`. -/
theorem updateScriptUI_overwrites_per_id (scripts : List ScriptState) (c : Client) (id : String) :
    (updateScriptUI scripts c).state.runningScripts id =
      (match lastFlag id scripts with
       | some r => some r
       | none => c.state.runningScripts id) ∧
    (updateScriptUI scripts c).state.systemLogs = c.state.systemLogs ∧
    (updateScriptUI scripts c).state.scriptLogs = c.state.scriptLogs ∧
    (updateScriptUI [⟨"x", false⟩] (updateScriptUI [⟨"x", true⟩] c)).state.runningScripts "x"
      = some false := by
  refine ⟨updateScriptUI_runningScripts scripts c id, (updateScriptUI_frame scripts c).1,
    (updateScriptUI_frame scripts c).2.1, ?_⟩
  rw [updateScriptUI_runningScripts]
  rfl

/-! ## Functions that leave `state` or the connection alone -/

/-- A client agrees with itself on the connection. -/
theorem SameChannel.rfl_of (c : Client) : SameChannel c c := ⟨rfl, rfl, rfl, rfl⟩

/-- Agreement on the connection is transitive. -/
theorem SameChannel.trans_of {c2 c1 c : Client} (h2 : SameChannel c2 c1) (h1 : SameChannel c1 c) :
    SameChannel c2 c :=
  ⟨h2.1.trans h1.1, h2.2.1.trans h1.2.1, h2.2.2.1.trans h1.2.2.1, h2.2.2.2.trans h1.2.2.2⟩

/-- A toast changes the document and adds a timer that is not a retry. -/
theorem toast_effect (msg type : String) (c c1 : Client) (h : toast msg type c = some c1) :
    c1.state = c.state ∧ SameChannel c1 c := by
  unfold toast at h
  cases hd : c.document "toast" with
  | none => simp [hd] at h
  | some el =>
    simp only [hd, Option.some.injEq] at h
    subst h
    refine ⟨rfl, rfl, rfl, rfl, ?_⟩
    simp [retryTimers, List.filter_append]

/-- The `catch` block of `toggleScript` writes neither `state` nor the connection. -/
theorem toggleCatch_effect (c : Client) :
    (toggleCatch c).client.state = c.state ∧ SameChannel (toggleCatch c).client c := by
  unfold toggleCatch
  cases h : toast "请求失败" "error" c with
  | none => exact ⟨rfl, SameChannel.rfl_of c⟩
  | some c1 => exact toast_effect _ _ c c1 h

/-- The rest of `toggleScript` after the reply writes neither `state` nor the connection. -/
theorem toggleScriptResume_effect (k : Suspended) (reply : PostReply) (c : Client) :
    (toggleScriptResume k reply c).client.state = c.state ∧
    SameChannel (toggleScriptResume k reply c).client c := by
  cases reply with
  | failed => exact toggleCatch_effect c
  | body success error =>
    cases success with
    | false =>
      simp only [toggleScriptResume]
      split
      · exact toggleCatch_effect c
      · next c1 h => exact toast_effect _ _ c c1 h
    | true =>
      simp only [toggleScriptResume]
      split
      · exact toggleCatch_effect c
      · next c1 h =>
        have t := toast_effect _ _ c c1 h
        split
        · exact t
        · split
          · have u := toggleCatch_effect c1
            exact ⟨u.1.trans t.1, u.2.trans_of t.2⟩
          · exact ⟨t.1, t.2⟩

/-- The function `toggleScript` up to its `await` writes neither `state` nor the connection. -/
theorem toggleScript_effect (id : String) (c : Client) :
    (toggleScript id c).state = c.state ∧ SameChannel (toggleScript id c) c :=
  ⟨rfl, rfl, rfl, rfl, rfl⟩

/-- The function `toggleLog` writes the document only. -/
theorem toggleLog_effect (id : String) (c : Client) :
    (toggleLog id c).client.state = c.state ∧ SameChannel (toggleLog id c).client c := by
  unfold toggleLog
  split
  · exact ⟨rfl, SameChannel.rfl_of c⟩
  · exact ⟨rfl, rfl, rfl, rfl, rfl⟩

/-- The function `clearLog` writes `state.scriptLogs[id]` and the document only. -/
theorem clearLog_effect (id : String) (c : Client) :
    (clearLog id c).client.state.runningScripts = c.state.runningScripts ∧
    (clearLog id c).client.state.systemLogs = c.state.systemLogs ∧
    (∀ k, (clearLog id c).client.state.scriptLogs k =
      if k = id then some [] else c.state.scriptLogs k) ∧
    SameChannel (clearLog id c).client c := by
  unfold clearLog
  dsimp only
  split
  · exact ⟨rfl, rfl, fun _ => rfl, rfl, rfl, rfl, rfl⟩
  · exact ⟨rfl, rfl, fun _ => rfl, rfl, rfl, rfl, rfl⟩

/-- The function `clearSystemLog` writes `state.systemLogs`, the document and the network only. -/
theorem clearSystemLog_effect (c : Client) :
    (clearSystemLog c).client.state.runningScripts = c.state.runningScripts ∧
    (clearSystemLog c).client.state.systemLogs = [] ∧
    (clearSystemLog c).client.state.scriptLogs = c.state.scriptLogs ∧
    SameChannel (clearSystemLog c).client c := by
  unfold clearSystemLog
  dsimp only
  split
  · exact ⟨rfl, rfl, rfl, rfl, rfl, rfl, rfl⟩
  · exact ⟨rfl, rfl, rfl, rfl, rfl, rfl, rfl⟩

/-- The callback that hides the toast writes the document only. -/
theorem hideToast_effect (c : Client) :
    (hideToast c).state = c.state ∧ SameChannel (hideToast c) c := by
  unfold hideToast
  split
  · exact ⟨rfl, SameChannel.rfl_of c⟩
  · exact ⟨rfl, rfl, rfl, rfl, rfl⟩

/-- The `log` listener writes neither the table nor the connection. -/
theorem onLog_effect (b : Browser) (data : EventData LogRecord) (c : Client) :
    (onLog b data c).client.state.runningScripts = c.state.runningScripts ∧
    SameChannel (onLog b data c).client c := by
  cases data with
  | unparseable raw => exact ⟨rfl, rfl, rfl, rfl, rfl⟩
  | illTyped raw => exact ⟨rfl, rfl, rfl, rfl, rfl⟩
  | wellFormed log =>
    have f := appendLogEntry_frame b log c
    refine ⟨f.1, f.2.1, f.2.2.1, f.2.2.2.1, ?_⟩
    show retryTimers (appendLogEntry b log c) = retryTimers c
    unfold retryTimers
    rw [f.2.2.2.2.1]

/-- The `script_status` listener does not write the connection. -/
theorem onScriptStatus_channel (data : EventData (List ScriptState)) (c : Client) :
    SameChannel (onScriptStatus data c).client c := by
  cases data with
  | unparseable raw => exact ⟨rfl, rfl, rfl, rfl⟩
  | illTyped raw => exact ⟨rfl, rfl, rfl, rfl⟩
  | wellFormed scripts =>
    have f := updateScriptUI_frame scripts c
    refine ⟨f.2.2.1, f.2.2.2.1, f.2.2.2.2.1, ?_⟩
    show retryTimers (updateScriptUI scripts c) = retryTimers c
    unfold retryTimers
    rw [f.2.2.2.2.2]

/-- The error handler leaves `state` as it is. -/
theorem onError_state (c : Client) : (onError c).state = c.state := by
  unfold onError closeHeld
  cases c.eventSource <;> rfl

/-- A timer that fires leaves `state` as it is. -/
theorem fireTimer_state (k : Nat) (c : Client) : (fireTimer k c).state = c.state := by
  unfold fireTimer
  split
  · rfl
  · next t _ =>
    cases t.callback with
    | connectSSE => exact connectSSE_state _
    | hideToast => exact (hideToast_effect _).1

/-! ## Malformed events -/

/-- C6. A malformed payload drops only that event: when the data of an
event cannot be parsed as JSON, the `log` listener and the `script_status`
listener both return without raising, leave `state` (every buffer and the
script state table) and the document unchanged, close no connection and
schedule no timer; they only write to the console. No listener raises for
any data. -/
theorem malformed_event_is_dropped (b : Browser) (raw : String) (src : Nat) (c : Client) :
    (onLog b (.unparseable raw) c).threw = false ∧
    (onLog b (.unparseable raw) c).client.state = c.state ∧
    (onLog b (.unparseable raw) c).client.document = c.document ∧
    (onLog b (.unparseable raw) c).client.eventSource = c.eventSource ∧
    (onLog b (.unparseable raw) c).client.openSources = c.openSources ∧
    (onLog b (.unparseable raw) c).client.timers = c.timers ∧
    (onLog b (.unparseable raw) c).client.console = c.console ++ ["解析日志失败"] ∧
    (onScriptStatus (.unparseable raw) c).threw = false ∧
    (onScriptStatus (.unparseable raw) c).client.state = c.state ∧
    (onScriptStatus (.unparseable raw) c).client.document = c.document ∧
    (onScriptStatus (.unparseable raw) c).client.eventSource = c.eventSource ∧
    (onScriptStatus (.unparseable raw) c).client.openSources = c.openSources ∧
    (onScriptStatus (.unparseable raw) c).client.timers = c.timers ∧
    (onScriptStatus (.unparseable raw) c).client.console = c.console ++ ["解析脚本状态失败"] ∧
    (∀ data, (onLog b data c).threw = false) ∧
    (∀ data, (onScriptStatus data c).threw = false) ∧
    (step b (.log src (.unparseable raw)) c).state = c.state ∧
    (step b (.log src (.unparseable raw)) c).document = c.document ∧
    (step b (.log src (.unparseable raw)) c).openSources = c.openSources ∧
    (step b (.log src (.unparseable raw)) c).timers = c.timers ∧
    (step b (.scriptStatus src (.unparseable raw)) c).state = c.state ∧
    (step b (.scriptStatus src (.unparseable raw)) c).document = c.document ∧
    (step b (.scriptStatus src (.unparseable raw)) c).openSources = c.openSources ∧
    (step b (.scriptStatus src (.unparseable raw)) c).timers = c.timers := by
  have hl : ∀ x : Client,
      (if src ∈ c.openSources then (onLog b (.unparseable raw) c).client else c) = x →
      x.state = c.state ∧ x.document = c.document ∧ x.openSources = c.openSources ∧
        x.timers = c.timers := by
    intro x hx
    subst hx
    split <;> exact ⟨rfl, rfl, rfl, rfl⟩
  have hs : ∀ x : Client,
      (if src ∈ c.openSources then (onScriptStatus (.unparseable raw) c).client else c) = x →
      x.state = c.state ∧ x.document = c.document ∧ x.openSources = c.openSources ∧
        x.timers = c.timers := by
    intro x hx
    subst hx
    split <;> exact ⟨rfl, rfl, rfl, rfl⟩
  obtain ⟨l1, l2, l3, l4⟩ := hl (step b (.log src (.unparseable raw)) c) rfl
  obtain ⟨s1, s2, s3, s4⟩ := hs (step b (.scriptStatus src (.unparseable raw)) c) rfl
  refine ⟨rfl, rfl, rfl, rfl, rfl, rfl, rfl, rfl, rfl, rfl, rfl, rfl, rfl, rfl, ?_, ?_,
    l1, l2, l3, l4, s1, s2, s3, s4⟩
  · intro data
    cases data <;> rfl
  · intro data
    cases data <;> rfl

/-! ## Clearing -/

/-- C7, as the claim states it, fails: on the sample page with one record in
the system buffer, a click on the clear button followed by a reply
`success: false` to the POST leaves the buffer empty, not with its contents. -/
theorem clearSystemLog_empties_despite_refusal :
    loggedClient.state.systemLogs = [systemRecord "L1"] ∧
    (run textOnlyBrowser
        [Event.clickClearSystemLog, Event.clearSettled (.body false (some "database is locked"))]
        loggedClient).state.systemLogs = [] ∧
    (run textOnlyBrowser [Event.clickClearSystemLog, Event.clearSettled .failed]
        loggedClient).state.systemLogs = [] := by
  refine ⟨rfl, ?_, ?_⟩
  · exact (clearSystemLog_effect loggedClient).2.1
  · exact (clearSystemLog_effect loggedClient).2.1

/-- C7, amended. The function `clearSystemLog` sends the POST request and empties
`state.systemLogs` at once, without waiting for the reply; the reply is never
read, so whatever it is, it changes nothing and the buffer stays empty. -/
theorem clearSystemLog_clears_at_once (b : Browser) (c : Client) (reply : PostReply) :
    (clearSystemLog c).client.state.systemLogs = [] ∧
    (clearSystemLog c).client.requests = c.requests ++ ["POST /api/logs/clear"] ∧
    step b (.clearSettled reply) c = c ∧
    (run b [Event.clickClearSystemLog, Event.clearSettled reply] c).state.systemLogs = [] := by
  refine ⟨(clearSystemLog_effect c).2.1, ?_, rfl, (clearSystemLog_effect c).2.1⟩
  unfold clearSystemLog
  dsimp only
  split <;> rfl

/-- C8. Buffers are cleared independently: `clearLog(id)` leaves
`state.scriptLogs[id]` empty and the system buffer, every other script buffer
and the script state table unchanged; `clearSystemLog` leaves
`state.systemLogs` empty and every script buffer and the script state table
unchanged. After either call the container of the cleared buffer, when the
page has it, holds the empty-state marker and nothing else. -/
theorem clear_is_per_buffer (id : String) (c : Client) :
    (∀ k, (clearLog id c).client.state.scriptLogs k =
      if k = id then some [] else c.state.scriptLogs k) ∧
    (clearLog id c).client.state.systemLogs = c.state.systemLogs ∧
    (clearLog id c).client.state.runningScripts = c.state.runningScripts ∧
    (∀ t, (clearLog id c).client.state.buffer t =
      if t = .script id then [] else c.state.buffer t) ∧
    ((clearLog id c).client.document ("content-" ++ id)).map Element.childNodes =
      (c.document ("content-" ++ id)).map (fun _ => [emptyMarker]) ∧
    (clearSystemLog c).client.state.systemLogs = [] ∧
    (clearSystemLog c).client.state.scriptLogs = c.state.scriptLogs ∧
    (clearSystemLog c).client.state.runningScripts = c.state.runningScripts ∧
    (∀ t, (clearSystemLog c).client.state.buffer t =
      if t = .system then [] else c.state.buffer t) ∧
    ((clearSystemLog c).client.document "system-log").map Element.childNodes =
      (c.document "system-log").map (fun _ => [emptyMarker]) ∧
    children [emptyMarker] = [emptyMarker] := by
  obtain ⟨l1, l2, l3, _⟩ := clearLog_effect id c
  obtain ⟨s1, s2, s3, _⟩ := clearSystemLog_effect c
  refine ⟨l3, l2, l1, ?_, ?_, s2, s3, s1, ?_, ?_, rfl⟩
  · intro t
    cases t with
    | system => simp [State.buffer, l2]
    | script k =>
      by_cases hk : k = id
      · simp [State.buffer, l3, hk]
      · simp [State.buffer, l3, hk]
  · unfold clearLog
    dsimp only
    cases h : c.document ("content-" ++ id) with
    | none => simp [h]
    | some el => simp [h, Document.set]
  · intro t
    cases t with
    | system => simp [State.buffer, s2]
    | script k => simp [State.buffer, s3]
  · unfold clearSystemLog
    dsimp only
    cases h : c.document "system-log" with
    | none => simp [h]
    | some el => simp [h, Document.set]

/-! ## Starting and stopping a script -/

/-- The step that resumes a suspended `toggleScript` leaves `state` as it is. -/
theorem step_toggleSettled_state (b : Browser) (n : Nat) (reply : PostReply) (c : Client) :
    (step b (.toggleSettled n reply) c).state = c.state := by
  show (match c.awaiting.get? n with
    | none => c
    | some call =>
      (toggleScriptResume call reply { c with awaiting := c.awaiting.eraseIdx n }).client).state = _
  split
  · rfl
  · rw [(toggleScriptResume_effect _ reply _).1]

/-- The table is written by the step of a well-formed `script_status` event
on an open connection, for the ids of its snapshot, and by no other step. -/
theorem step_runningScripts (b : Browser) (ev : Event) (c : Client) (j : String)
    (h : (step b ev c).state.runningScripts j ≠ c.state.runningScripts j) :
    ∃ src scripts, ev = .scriptStatus src (.wellFormed scripts) ∧ src ∈ c.openSources ∧
      j ∈ scripts.map ScriptState.id := by
  cases ev with
  | log src data =>
    exfalso; apply h
    show (if src ∈ c.openSources then (onLog b data c).client else c).state.runningScripts j = _
    split
    · rw [(onLog_effect b data c).1]
    · rfl
  | scriptStatus src data =>
    by_cases ho : src ∈ c.openSources
    · cases data with
      | unparseable raw => exfalso; apply h; simp [step, ho, onScriptStatus, scriptStatusTryBlock]
      | illTyped raw => exfalso; apply h; simp [step, ho, onScriptStatus, scriptStatusTryBlock]
      | wellFormed scripts =>
        refine ⟨src, scripts, rfl, ho, ?_⟩
        by_contra hj
        apply h
        have e : (step b (.scriptStatus src (.wellFormed scripts)) c) = updateScriptUI scripts c := by
          simp [step, ho, onScriptStatus, scriptStatusTryBlock]
        rw [e, updateScriptUI_runningScripts, lastFlag_eq_none j scripts hj]
    · exfalso; apply h; simp [step, ho]
  | error src =>
    exfalso; apply h
    show (if src ∈ c.openSources then onError c else c).state.runningScripts j = _
    split
    · rw [onError_state]
    · rfl
  | timerFires k => exfalso; apply h; show (fireTimer k c).state.runningScripts j = _; rw [fireTimer_state]
  | clickToggleScript id => exact absurd rfl h
  | toggleSettled k reply =>
    exfalso; apply h
    rw [step_toggleSettled_state]
  | clickClearLog id => exfalso; apply h; show (clearLog id c).client.state.runningScripts j = _; rw [(clearLog_effect id c).1]
  | clickClearSystemLog => exfalso; apply h; show (clearSystemLog c).client.state.runningScripts j = _; rw [(clearSystemLog_effect c).1]
  | clearSettled reply => exact absurd rfl h
  | clickToggleLog id => exfalso; apply h; show (toggleLog id c).client.state.runningScripts j = _; rw [(toggleLog_effect id c).1]

/-- C9. Starting or stopping a script never changes local state by itself:
for every id, every prior state and every outcome of the POST, `toggleScript`
leaves `state` (the script state table and all log buffers) unchanged, both
up to the request and after the reply. It requests `stop` exactly when the
stored state of the id is `true` and `start` otherwise, also when no snapshot
has arrived. The stored state of an id changes in a step only when that step
is a `script_status` event whose snapshot, applied by `updateScriptUI`,
contains the id. -/
theorem toggleScript_leaves_state (b : Browser) (id : String) (c : Client) (k : Suspended)
    (reply : PostReply) (n : Nat) (ev : Event) (j : String) :
    (toggleScript id c).state = c.state ∧
    (toggleScriptResume k reply c).client.state = c.state ∧
    (step b (.clickToggleScript id) c).state = c.state ∧
    (step b (.toggleSettled n reply) c).state = c.state ∧
    (toggleScript id c).requests = c.requests ++
      ["POST /api/scripts/" ++ id ++ "/" ++
        (if c.state.runningScripts id = some true then "stop" else "start")] ∧
    ((step b ev c).state.runningScripts j ≠ c.state.runningScripts j →
      ∃ src scripts, ev = .scriptStatus src (.wellFormed scripts) ∧ src ∈ c.openSources ∧
        j ∈ scripts.map ScriptState.id ∧
        (step b ev c).state.runningScripts j = (updateScriptUI scripts c).state.runningScripts j) := by
  refine ⟨rfl, (toggleScriptResume_effect k reply c).1, rfl, ?_, ?_, ?_⟩
  · exact step_toggleSettled_state b n reply c
  · show c.requests ++ [toggleRequest id c] = _
    unfold toggleRequest
    cases h : c.state.runningScripts id with
    | none => simp [truthy]
    | some v => cases v <;> simp [truthy]
  · intro h
    obtain ⟨src, scripts, he, ho, hj⟩ := step_runningScripts b ev c j h
    refine ⟨src, scripts, he, ho, hj, ?_⟩
    subst he
    simp [step, ho, onScriptStatus, scriptStatusTryBlock]

/-! ## The connection and its retry timer -/

/-- Removing an element that fails a test does not change what passes it. -/
theorem filter_eraseIdx_of_false {α : Type} (p : α → Bool) (l : List α) (k : Nat) (t : α)
    (hk : l.get? k = some t) (hp : p t = false) : (l.eraseIdx k).filter p = l.filter p := by
  induction l generalizing k with
  | nil => simp at hk
  | cons a rest ih =>
    cases k with
    | zero =>
      simp only [List.get?_cons_zero, Option.some.injEq] at hk
      subst hk
      simp [List.eraseIdx, List.filter_cons, hp]
    | succ k =>
      simp only [List.get?_cons_succ] at hk
      simp only [List.eraseIdx, List.filter_cons]
      rw [ih k hk]

/-- Removing an element that passes a test removes one of those that pass it. -/
theorem length_filter_eraseIdx_of_true {α : Type} (p : α → Bool) (l : List α) (k : Nat) (t : α)
    (hk : l.get? k = some t) (hp : p t = true) :
    ((l.eraseIdx k).filter p).length + 1 = (l.filter p).length := by
  induction l generalizing k with
  | nil => simp at hk
  | cons a rest ih =>
    cases k with
    | zero =>
      simp only [List.get?_cons_zero, Option.some.injEq] at hk
      subst hk
      simp [List.eraseIdx, List.filter_cons, hp]
    | succ k =>
      simp only [List.get?_cons_succ] at hk
      simp only [List.eraseIdx, List.filter_cons]
      cases hpa : p a with
      | true => simp only [if_true, List.length_cons]; rw [ih k hk]
      | false => simp only [Bool.false_eq_true, if_false]; exact ih k hk

/-- The invariant of the connection depends on the connection fields only. -/
theorem ChannelInv.of_same {c1 c : Client} (h : SameChannel c1 c) (hc : ChannelInv c) :
    ChannelInv c1 := by
  obtain ⟨e, h1, h2, h3⟩ := hc
  obtain ⟨s1, s2, s3, s4⟩ := h
  refine ⟨e, s1.trans h1, by rw [s3]; exact h2, ?_⟩
  rw [s2, s4]
  exact h3

/-- After `init` on a fresh page the connection is in order. -/
theorem init_channelInv (b : Browser) (reply : HistoryReply) (doc : Document) :
    ChannelInv (init b reply (Client.initial doc)) := by
  obtain ⟨h1, h2, h3, h4⟩ := init_openSources b reply doc
  refine ⟨0, h2, by rw [h3]; exact Nat.zero_lt_one, Or.inl ⟨h1, ?_⟩⟩
  unfold retryTimers
  rw [h4]
  rfl

/-- The error handler on an open connection closes it and leaves one retry pending. -/
theorem onError_of_open (c : Client) (hc : ChannelInv c) (src : Nat) (hs : src ∈ c.openSources) :
    (onError c).openSources = [] ∧
    retryTimers (onError c) = [⟨Callback.connectSSE, 5000⟩] ∧
    (onError c).eventSource = c.eventSource ∧ (onError c).created = c.created ∧
    c.openSources = [src] ∧ c.eventSource = some src := by
  obtain ⟨e, h1, h2, h3⟩ := hc
  rcases h3 with ⟨ho, hr⟩ | ⟨ho, hr⟩
  · rw [ho] at hs
    have hse : src = e := by simpa using hs
    subst hse
    unfold retryTimers at hr
    simp [onError, closeHeld, h1, ho, retryTimers, List.filter_append, hr]
  · rw [ho] at hs
    simp at hs

/-- The function `connectSSE` in a running client: the held connection is closed, which
leaves none open, and then the new one is the only open connection. -/
theorem connectSSE_of_inv (c : Client) (hc : ChannelInv c) :
    (closeHeld c).openSources = [] ∧
    (connectSSE c).openSources = [c.created] ∧
    (connectSSE c).eventSource = some c.created ∧
    (connectSSE c).created = c.created + 1 ∧
    retryTimers (connectSSE c) = retryTimers c ∧
    c.created ∉ c.openSources := by
  obtain ⟨e, h1, h2, h3⟩ := hc
  have hne : e ≠ c.created := Nat.ne_of_lt h2
  rcases h3 with ⟨ho, _⟩ | ⟨ho, _⟩
  · simp [connectSSE, openNew, closeHeld, h1, ho, retryTimers, hne.symm]
  · simp [connectSSE, openNew, closeHeld, h1, ho, retryTimers]

/-- A timer that fires keeps the connection in order. -/
theorem fireTimer_channelInv (k : Nat) (c : Client) (hc : ChannelInv c) :
    ChannelInv (fireTimer k c) := by
  unfold fireTimer
  split
  · exact hc
  · next t ht =>
    dsimp only
    cases hcb : t.callback with
    | hideToast =>
      dsimp only
      have hp : (fun t : Timer => decide (t.callback = Callback.connectSSE)) t = false := by
        simp [hcb]
      have hf := filter_eraseIdx_of_false
        (fun t : Timer => decide (t.callback = Callback.connectSSE)) c.timers k t ht hp
      have hs : SameChannel { c with timers := c.timers.eraseIdx k } c := ⟨rfl, rfl, rfl, hf⟩
      exact ChannelInv.of_same ((hideToast_effect _).2.trans_of hs) hc
    | connectSSE =>
      dsimp only
      have hp : (fun t : Timer => decide (t.callback = Callback.connectSSE)) t = true := by
        simp [hcb]
      have hl := length_filter_eraseIdx_of_true
        (fun t : Timer => decide (t.callback = Callback.connectSSE)) c.timers k t ht hp
      obtain ⟨e, h1, h2, h3⟩ := hc
      rcases h3 with ⟨ho, hr⟩ | ⟨ho, hr⟩
      · unfold retryTimers at hr
        rw [hr] at hl
        simp at hl
      · unfold retryTimers at hr
        rw [hr] at hl
        have hnil : (c.timers.eraseIdx k).filter (fun t => decide (t.callback = Callback.connectSSE)) = [] := by
          apply List.eq_nil_of_length_eq_zero
          simpa using hl
        refine ⟨c.created, ?_, ?_, Or.inl ⟨?_, ?_⟩⟩
        · simp [connectSSE, openNew, closeHeld, h1]
        · simp [connectSSE, openNew, closeHeld, h1]
        · simp [connectSSE, openNew, closeHeld, h1, ho]
        · simp [connectSSE, openNew, closeHeld, h1, retryTimers, hnil]

/-- Every step keeps the connection in order. -/
theorem step_channelInv (b : Browser) (ev : Event) (c : Client) (hc : ChannelInv c) :
    ChannelInv (step b ev c) := by
  cases ev with
  | log src data =>
    show ChannelInv (if src ∈ c.openSources then (onLog b data c).client else c)
    split
    · exact ChannelInv.of_same (onLog_effect b data c).2 hc
    · exact hc
  | scriptStatus src data =>
    show ChannelInv (if src ∈ c.openSources then (onScriptStatus data c).client else c)
    split
    · exact ChannelInv.of_same (onScriptStatus_channel data c) hc
    · exact hc
  | error src =>
    show ChannelInv (if src ∈ c.openSources then onError c else c)
    split
    · next hs =>
      obtain ⟨h1, h2, h3, h4, _, h6⟩ := onError_of_open c hc src hs
      obtain ⟨e, e1, e2, _⟩ := hc
      exact ⟨e, h3.trans e1, by rw [h4]; exact e2, Or.inr ⟨h1, h2⟩⟩
    · exact hc
  | timerFires k => exact fireTimer_channelInv k c hc
  | clickToggleScript id => exact ChannelInv.of_same (toggleScript_effect id c).2 hc
  | toggleSettled n reply =>
    show ChannelInv (match c.awaiting.get? n with
      | none => c
      | some call =>
        (toggleScriptResume call reply { c with awaiting := c.awaiting.eraseIdx n }).client)
    split
    · exact hc
    · next call _ =>
      have hs : SameChannel { c with awaiting := c.awaiting.eraseIdx n } c := ⟨rfl, rfl, rfl, rfl⟩
      exact ChannelInv.of_same ((toggleScriptResume_effect call reply _).2.trans_of hs) hc
  | clickClearLog id => exact ChannelInv.of_same (clearLog_effect id c).2.2.2 hc
  | clickClearSystemLog => exact ChannelInv.of_same (clearSystemLog_effect c).2.2.2 hc
  | clearSettled reply => exact hc
  | clickToggleLog id => exact ChannelInv.of_same (toggleLog_effect id c).2 hc

/-- Every client reached after `init` has its connection in order. -/
theorem run_channelInv (b : Browser) (evs : List Event) (c : Client) (hc : ChannelInv c) :
    ChannelInv (run b evs c) := by
  induction evs generalizing c with
  | nil => exact hc
  | cons ev rest ih => exact ih (step b ev c) (step_channelInv b ev c hc)

/-- C5. Reconnecting keeps a single stream and a single timer: in every
client reached from the `connectSSE` call of `init` by any sequence of
events, among them errors on the open connection and timers that fire, at
most one connection is open and at most one retry is pending, and exactly one
of the two is the case. An error on the open connection closes it and leaves
exactly one retry, of 5000 ms, pending. A call of `connectSSE` closes the
connection it held, after which none is open, before it opens the new one,
which is then the only open connection. -/
theorem reconnect_single_stream_single_timer (b : Browser) (doc : Document)
    (reply : HistoryReply) (evs : List Event) :
    (reached b doc reply evs).openSources.length ≤ 1 ∧
    (retryTimers (reached b doc reply evs)).length ≤ 1 ∧
    (reached b doc reply evs).openSources.length + (retryTimers (reached b doc reply evs)).length = 1 ∧
    (∀ src ∈ (reached b doc reply evs).openSources,
      (step b (.error src) (reached b doc reply evs)).openSources = [] ∧
      retryTimers (step b (.error src) (reached b doc reply evs)) = [⟨Callback.connectSSE, 5000⟩]) ∧
    (∀ k t, (reached b doc reply evs).timers.get? k = some t → t.callback = Callback.connectSSE →
      t.delay = 5000 ∧
      (step b (.timerFires k) (reached b doc reply evs)).openSources = [(reached b doc reply evs).created] ∧
      retryTimers (step b (.timerFires k) (reached b doc reply evs)) = []) ∧
    (closeHeld (reached b doc reply evs)).openSources = [] ∧
    (connectSSE (reached b doc reply evs)).openSources = [(reached b doc reply evs).created] ∧
    (reached b doc reply evs).created ∉ (reached b doc reply evs).openSources := by
  have hc : ChannelInv (reached b doc reply evs) :=
    run_channelInv b evs _ (init_channelInv b reply doc)
  generalize reached b doc reply evs = c at hc
  have hconn := connectSSE_of_inv c hc
  have hlen : c.openSources.length + (retryTimers c).length = 1 := by
    obtain ⟨e, _, _, h3⟩ := hc
    rcases h3 with ⟨ho, hr⟩ | ⟨ho, hr⟩ <;> rw [ho, hr] <;> rfl
  refine ⟨by omega, by omega, hlen, ?_, ?_, hconn.1, hconn.2.1, hconn.2.2.2.2.2⟩
  · intro src hs
    obtain ⟨h1, h2, _⟩ := onError_of_open c hc src hs
    have e : step b (.error src) c = onError c := by
      show (if src ∈ c.openSources then onError c else c) = _
      rw [if_pos hs]
    rw [e]
    exact ⟨h1, h2⟩
  · intro k t hk ht
    have hinv := fireTimer_channelInv k c hc
    have hmem : t ∈ retryTimers c := by
      unfold retryTimers
      rw [List.mem_filter]
      exact ⟨List.get?_mem hk, by simp [ht]⟩
    obtain ⟨e, h1, h2, h3⟩ := hc
    rcases h3 with ⟨ho, hr⟩ | ⟨ho, hr⟩
    · rw [hr] at hmem
      simp at hmem
    · rw [hr] at hmem
      have ht5 : t = ⟨Callback.connectSSE, 5000⟩ := by simpa using hmem
      have hp : (fun t : Timer => decide (t.callback = Callback.connectSSE)) t = true := by
        simp [ht]
      have hl := length_filter_eraseIdx_of_true
        (fun t : Timer => decide (t.callback = Callback.connectSSE)) c.timers k t hk hp
      unfold retryTimers at hr
      rw [hr] at hl
      have hnil : (c.timers.eraseIdx k).filter
          (fun t => decide (t.callback = Callback.connectSSE)) = [] := by
        apply List.eq_nil_of_length_eq_zero
        simpa using hl
      have e2 : step b (.timerFires k) c = connectSSE { c with timers := c.timers.eraseIdx k } := by
        show fireTimer k c = _
        unfold fireTimer
        rw [hk]
        dsimp only
        rw [ht]
      rw [e2]
      refine ⟨by rw [ht5], ?_, ?_⟩
      · simp [connectSSE, openNew, closeHeld, h1, ho]
      · simp [connectSSE, openNew, closeHeld, h1, retryTimers, hnil]

/-! ## The rendered container -/

/-- The last `n` elements of a list that has no more than `n` are all of it. -/
theorem lastN_of_length_le {α : Type} (n : Nat) (l : List α) (h : l.length ≤ n) :
    lastN n l = l := by
  unfold lastN
  rw [Nat.sub_eq_zero_of_le h]
  rfl

/-- The last `n` elements of a list that has more than `n` are those of its tail. -/
theorem lastN_cons_of_lt {α : Type} (n : Nat) (a : α) (l : List α) (h : n < (a :: l).length) :
    lastN n (a :: l) = lastN n l := by
  unfold lastN
  simp only [List.length_cons] at h ⊢
  have e : l.length + 1 - n = (l.length - n) + 1 := by omega
  rw [e, List.drop_succ_cons]

/-- The last `n` elements of a list are at most `n`. -/
theorem lastN_length_le {α : Type} (n : Nat) (l : List α) : (lastN n l).length ≤ n := by
  unfold lastN
  rw [List.length_drop]
  omega

/-- The loop keeps the last 200 element children. -/
theorem trimChildren_children (l : List Node) :
    children (trimChildren l) = lastN 200 (children l) := by
  induction l with
  | nil => rfl
  | cons n rest ih =>
    unfold trimChildren
    split
    · next h =>
      rw [ih]
      cases n with
      | text data => rfl
      | elem cls kids =>
        have e : children (Node.elem cls kids :: rest) = Node.elem cls kids :: children rest := rfl
        rw [e]
        exact (lastN_cons_of_lt 200 _ _ (by rw [← e]; exact h)).symm
    · next h =>
      exact (lastN_of_length_le 200 _ (Nat.le_of_not_lt h)).symm

/-- The loop removes child nodes from the front only. -/
theorem trimChildren_suffix (l : List Node) : trimChildren l <:+ l := by
  induction l with
  | nil => exact List.suffix_refl _
  | cons n rest ih =>
    unfold trimChildren
    split
    · exact ih.trans (List.suffix_cons n rest)
    · exact List.suffix_refl _

/-- The loop does not remove a last node that is an element. -/
theorem trimChildren_getLast (l : List Node) (entry : Node) (he : entry.isElem = true) :
    (trimChildren (l ++ [entry])).getLast? = some entry := by
  induction l with
  | nil =>
    have h : trimChildren ([] ++ [entry]) = [entry] := by
      simp [trimChildren, he]
    rw [h]
    rfl
  | cons n rest ih =>
    have e : (n :: rest) ++ [entry] = n :: (rest ++ [entry]) := rfl
    rw [e]
    unfold trimChildren
    split
    · exact ih
    · rw [← e, List.getLast?_append]
      rfl

/-- A new entry is an element child. -/
theorem children_append_entry (b : Browser) (log : LogRecord) (l : List Node) :
    children (l ++ [createEntry b log]) = children l ++ [createEntry b log] := by
  unfold children
  rw [List.filter_append]
  rfl

/-- What `appendToContainer` does to the child nodes of an existing
container: at most 200 element children remain; when the guard
`el.querySelector('.empty-log')` finds an element the result is the new entry
alone, and otherwise the element children are the last 200 of the previous
ones followed by the new entry; the new entry is the last child and what
remains is a final segment of the kept nodes followed by the new entry. -/
theorem appendToChildNodes_effect (b : Browser) (containerId : String) (log : LogRecord)
    (nodes : List Node) (doc : Document) :
    (children (appendToChildNodes b log nodes)).length ≤ 200 ∧
    children (appendToChildNodes b log nodes) =
      (if Node.anyEmptyLog nodes then [createEntry b log]
       else lastN 200 (children nodes ++ [createEntry b log])) ∧
    appendToChildNodes b log nodes =
      (if Node.anyEmptyLog nodes then [createEntry b log]
       else trimChildren (nodes ++ [createEntry b log])) ∧
    appendToChildNodes b log [emptyMarker] = [createEntry b log] ∧
    (appendToChildNodes b log nodes).getLast? = some (createEntry b log) ∧
    appendToChildNodes b log nodes <:+
      (if Node.anyEmptyLog nodes then [] else nodes) ++ [createEntry b log] ∧
    (appendToContainer b containerId log doc containerId).map Element.childNodes =
      (doc containerId).map (fun el => appendToChildNodes b log el.childNodes) := by
  have hone : trimChildren [createEntry b log] = [createEntry b log] := by
    simp [trimChildren, createEntry, Node.isElem]
  have hch : children (appendToChildNodes b log nodes) =
      lastN 200 (children (if Node.anyEmptyLog nodes then [] else nodes) ++ [createEntry b log]) := by
    unfold appendToChildNodes
    dsimp only
    rw [trimChildren_children, children_append_entry]
  refine ⟨?_, ?_, ?_, ?_, ?_, ?_, ?_⟩
  · rw [hch]
    exact lastN_length_le 200 _
  · rw [hch]
    cases Node.anyEmptyLog nodes with
    | true =>
      simp only [if_true]
      exact lastN_of_length_le 200 [createEntry b log] (by simp)
    | false => simp only [Bool.false_eq_true, if_false]
  · unfold appendToChildNodes
    dsimp only
    cases Node.anyEmptyLog nodes with
    | true => exact hone
    | false => rfl
  · have ha : Node.anyEmptyLog [emptyMarker] = true := by decide
    unfold appendToChildNodes
    dsimp only
    rw [ha]
    exact hone
  · unfold appendToChildNodes
    dsimp only
    exact trimChildren_getLast _ _ rfl
  · unfold appendToChildNodes
    dsimp only
    exact trimChildren_suffix _
  · unfold appendToContainer
    cases h : doc containerId with
    | none => simp [h]
    | some el => simp [Document.set]

/-- The entry built for a record of level `empty-log` carries the class
`empty-log`, so the guard of `appendToContainer` finds it, whatever the parser. -/
theorem anyEmptyLog_oddLevelEntry (b : Browser) :
    Node.anyEmptyLog [createEntry b oddLevelRecord] = true := by
  have hc : classTokens ("log-entry " ++ oddLevelRecord.level.toStr) = ["log-entry", "empty-log"] := by
    decide
  have hm : (["log-entry", "empty-log"] : List String).contains "empty-log" = true := by decide
  unfold createEntry
  rw [hc]
  simp only [Node.anyEmptyLog, Node.hasEmptyLog, hm, Bool.true_or]

/-- C10. The code breaks the claim on records alone. On a page whose
`system-log` container shows the empty-state marker, the record with level
`empty-log` is appended and the container holds its entry alone, as claimed.
That container holds a log entry and no marker, so after the next record the
claim has it hold both entries, the last 200 of the previous children and the
new entry. The code instead finds the class `empty-log` on the first entry,
empties the container and leaves the second entry alone, although
`state.systemLogs` holds both records. -/
theorem appendToContainer_wipes_rendered_entry (b : Browser) :
    ((appendLogEntry b oddLevelRecord (Client.initial samplePage)).document "system-log").map
        Element.childNodes = some [createEntry b oddLevelRecord] ∧
    ((appendLogEntry b (systemRecord "L2")
        (appendLogEntry b oddLevelRecord (Client.initial samplePage))).document "system-log").map
        Element.childNodes = some [createEntry b (systemRecord "L2")] ∧
    lastN 200 (children [createEntry b oddLevelRecord] ++ [createEntry b (systemRecord "L2")])
      = [createEntry b oddLevelRecord, createEntry b (systemRecord "L2")] ∧
    (appendLogEntry b (systemRecord "L2")
        (appendLogEntry b oddLevelRecord (Client.initial samplePage))).state.systemLogs
      = [oddLevelRecord, systemRecord "L2"] := by
  have hmark : Node.anyEmptyLog [emptyMarker] = true := by decide
  have h1 : appendToChildNodes b oddLevelRecord [emptyMarker] = [createEntry b oddLevelRecord] := by
    rw [(appendToChildNodes_effect b "system-log" oddLevelRecord [emptyMarker] samplePage).2.2.1,
      hmark]
    rfl
  have h2 : appendToChildNodes b (systemRecord "L2") [createEntry b oddLevelRecord]
      = [createEntry b (systemRecord "L2")] := by
    rw [(appendToChildNodes_effect b "system-log" (systemRecord "L2")
      [createEntry b oddLevelRecord] samplePage).2.2.1, anyEmptyLog_oddLevelEntry]
    rfl
  have e1 : appendLogEntry b oddLevelRecord (Client.initial samplePage)
      = appendSystem b oddLevelRecord (Client.initial samplePage) := by
    rw [appendLogEntry_eq]
    rfl
  have e2 : ∀ c : Client, appendLogEntry b (systemRecord "L2") c
      = appendSystem b (systemRecord "L2") c := by
    intro c
    rw [appendLogEntry_eq]
    rfl
  have d1 : ((appendSystem b oddLevelRecord (Client.initial samplePage)).document
      "system-log").map Element.childNodes = some [createEntry b oddLevelRecord] := by
    have hd := (appendToChildNodes_effect b "system-log" oddLevelRecord [] samplePage).2.2.2.2.2.2
    show ((appendToContainer b "system-log" oddLevelRecord samplePage) "system-log").map
      Element.childNodes = _
    rw [hd]
    show some (appendToChildNodes b oddLevelRecord [emptyMarker]) = _
    rw [h1]
  refine ⟨by rw [e1]; exact d1, ?_, ?_, ?_⟩
  · rw [e2, e1]
    have hd := (appendToChildNodes_effect b "system-log" (systemRecord "L2") []
      (appendSystem b oddLevelRecord (Client.initial samplePage)).document).2.2.2.2.2.2
    show ((appendToContainer b "system-log" (systemRecord "L2")
      (appendSystem b oddLevelRecord (Client.initial samplePage)).document) "system-log").map
      Element.childNodes = _
    rw [hd]
    cases hdoc : (appendSystem b oddLevelRecord (Client.initial samplePage)).document "system-log" with
    | none => rw [hdoc] at d1; simp at d1
    | some el =>
      rw [hdoc] at d1
      simp only [Option.map_some', Option.some.injEq] at d1
      simp only [Option.map_some', Option.some.injEq]
      rw [d1, h2]
  · exact lastN_of_length_le 200 _ (by simp [children, createEntry, Node.isElem])
  · rw [e2, e1]
    rfl

end XueqiuTrader
